import Mathlib

/-!
A verification development for the `regen` library (`regen.go`): a generator of
random strings matching a regular expression.  The AST type, the compiler
(`newGenerator` and the per-kind factories) and the generation semantics are
embedded from `src/regen.go`.  The `util` package (character classes, RNG
helpers) is not part of the provided sources; its character-class index is
modelled from the specification (section 4.1).

Conventions of the embedding:
* Strings are lists of code points (`List Nat`), mirroring `util.RunesToString`.
* The random source is an infinite stream `σ : Nat → Nat` of raw draws together
  with a cursor `k`; `Rng.Intn n` (and `Rng.Int31n n`) with `n > 0` is modelled
  as `σ k % n` (some value in `[0, n)`), consuming one draw.  A call with
  `n ≤ 0` panics in Go; a panic is modelled as `none`.
* `r.Simplify()` is the external normalisation step of `regexp/syntax`
  (spec section 4.5); it is modelled as the identity.
-/

/-- The node kinds of `regexp/syntax.Op` relevant to `regen.go`. -/
inductive Op where
  | OpNoMatch
  | OpEmptyMatch
  | OpLiteral
  | OpCharClass
  | OpAnyCharNotNL
  | OpAnyChar
  | OpBeginLine
  | OpEndLine
  | OpBeginText
  | OpEndText
  | OpWordBoundary
  | OpNoWordBoundary
  | OpCapture
  | OpStar
  | OpPlus
  | OpQuest
  | OpRepeat
  | OpConcat
  | OpAlternate
deriving DecidableEq

/-- The AST node `regexp/syntax.Regexp`, restricted to the fields `regen.go`
reads: `Op`, `Sub`, `Rune`, `Min`, `Max`. -/
inductive Regexp where
  | mk (op : Op) (sub : List Regexp) (rune : List Nat) (min : Int) (max : Int)

/-- Field accessor for `r.Op`. -/
def Regexp.Op : Regexp → Op
  | .mk o _ _ _ _ => o

/-- Field accessor for `r.Sub`. -/
def Regexp.Sub : Regexp → List Regexp
  | .mk _ s _ _ _ => s

/-- Field accessor for `r.Rune`. -/
def Regexp.Rune : Regexp → List Nat
  | .mk _ _ ru _ _ => ru

/-- Field accessor for `r.Min`. -/
def Regexp.Min : Regexp → Int
  | .mk _ _ _ mn _ => mn

/-- Field accessor for `r.Max`. -/
def Regexp.Max : Regexp → Int
  | .mk _ _ _ _ mx => mx

/-- Modelled from the spec: `util.CharClass` (not under `src/`), an ordered
sequence of disjoint inclusive code-point ranges `[lo, hi]`. -/
structure CharClass where
  ranges : List (Nat × Nat)

/-- Size `hi - lo + 1` of one inclusive range. -/
def rangeSize (p : Nat × Nat) : Nat := p.2 - p.1 + 1

/-- Modelled from the spec: `totalSize()` of `util.CharClass` — the sum of the
range sizes, kept as an unbounded integer (the spec requires a wide-enough
integer so the count of ranges spanning the code-point space cannot overflow). -/
def totalSizeList : List (Nat × Nat) → Nat
  | [] => 0
  | p :: rest => rangeSize p + totalSizeList rest

/-- `TotalSize` of a `util.CharClass` (spec section 4.1). -/
def CharClass.TotalSize (cc : CharClass) : Nat := totalSizeList cc.ranges

/-- Modelled from the spec: `codePointAt` — walk the ranges accumulating
offsets; the code point is `lo + (i - cumulative_before)`.  Out-of-range `i`
is a contract violation; the function is made total arbitrarily there. -/
def getRuneAtList : List (Nat × Nat) → Nat → Nat
  | [], i => i
  | p :: rest, i => if i < rangeSize p then p.1 + i else getRuneAtList rest (i - rangeSize p)

/-- `GetRuneAt` of a `util.CharClass` (spec section 4.1). -/
def CharClass.GetRuneAt (cc : CharClass) (i : Nat) : Nat := getRuneAtList cc.ranges i

/-- Modelled from the spec: `util.NewCharClass(lo, hi)` builds the index over
the single range `[lo, hi]`. -/
def NewCharClass (lo hi : Nat) : CharClass := ⟨[(lo, hi)]⟩

/-- Pair up a flat `[lo1, hi1, lo2, hi2, ...]` rune list into ranges. -/
def pairRunes : List Nat → List (Nat × Nat)
  | lo :: hi :: rest => (lo, hi) :: pairRunes rest
  | _ => []

/-- Modelled from the spec: `util.ParseCharClass` builds the index from the
AST's flat rune-pair list. -/
def ParseCharClass (runes : List Nat) : CharClass := ⟨pairRunes runes⟩

/-- A compiled generator (the closure tree built by `regen.go`). -/
inductive Gen where
  | empty : Gen
  | literal : List Nat → Gen
  | anyChar : Gen
  | charClass : CharClass → Gen
  | concat : List Gen → Gen
  | alternate : List Gen → Gen
  | rep : Int → Int → Gen → Gen

/-- Compile-time errors of `regen.go` (`GeneratorError` and the `enforceOp`
panic, kept apart so its unreachability can be stated). -/
inductive Err where
  | msg (s : String)
  | opMismatch (expected actual : Op)
  | singleSub (op : Op) (count : Nat) (node : Regexp)
  | unsupported (node : Regexp)
  | wrap (s : String) (cause : Err)

/-- The names of the factory functions registered in `init()`. -/
inductive FactoryTag where
  | fEmptyMatch
  | fLiteral
  | fAnyCharNotNl
  | fAnyChar
  | fQuest
  | fStar
  | fPlus
  | fRepeat
  | fCharClass
  | fConcat
  | fAlternate
  | fCapture
  | fNoop
deriving DecidableEq

/-- The `generatorFactories` map built in `init()` (`regen.go` lines 89-110):
each registered `syntax.Op` is sent to its factory; unregistered kinds
(`OpNoMatch`) are absent. -/
def generatorFactories : Op → Option FactoryTag
  | .OpEmptyMatch => some .fEmptyMatch
  | .OpLiteral => some .fLiteral
  | .OpAnyCharNotNL => some .fAnyCharNotNl
  | .OpAnyChar => some .fAnyChar
  | .OpQuest => some .fQuest
  | .OpStar => some .fStar
  | .OpPlus => some .fPlus
  | .OpRepeat => some .fRepeat
  | .OpCharClass => some .fCharClass
  | .OpConcat => some .fConcat
  | .OpAlternate => some .fAlternate
  | .OpCapture => some .fCapture
  | .OpBeginLine => some .fNoop
  | .OpEndLine => some .fNoop
  | .OpBeginText => some .fNoop
  | .OpEndText => some .fNoop
  | .OpWordBoundary => some .fNoop
  | .OpNoWordBoundary => some .fNoop
  | .OpNoMatch => none

/-- `MaxUpperBound` (`regen.go` line 65): the number of instances to generate
for unbounded repeat expressions. -/
def MaxUpperBound : Int := 4096

mutual

/-- `newGenerator` (`regen.go` lines 167-178) together with the factory bodies
it dispatches to.  Each factory begins with the `enforceOp` check (modelled as
the `Err.opMismatch` outcome instead of a panic).  `r.Simplify()` is the
external normalisation step, modelled as the identity. -/
def newGenerator : Regexp → Except Err Gen
  | r@(.mk o subs runes _ mx) =>
    match generatorFactories o with
    | none => .error (.unsupported r)
    | some t =>
      match t with
      | .fNoop => .ok .empty
      | .fEmptyMatch =>
        if o = .OpEmptyMatch then .ok .empty else .error (.opMismatch .OpEmptyMatch o)
      | .fLiteral =>
        if o = .OpLiteral then .ok (.literal runes) else .error (.opMismatch .OpLiteral o)
      | .fAnyChar =>
        if o = .OpAnyChar then .ok .anyChar else .error (.opMismatch .OpAnyChar o)
      | .fAnyCharNotNl =>
        if o = .OpAnyCharNotNL then .ok (.charClass (NewCharClass 1 (2 ^ 31 - 1)))
        else .error (.opMismatch .OpAnyCharNotNL o)
      | .fCharClass =>
        if o = .OpCharClass then .ok (.charClass (ParseCharClass runes))
        else .error (.opMismatch .OpCharClass o)
      | .fQuest =>
        if o = .OpQuest then createRepeatingGenerator r 0 1
        else .error (.opMismatch .OpQuest o)
      | .fStar =>
        if o = .OpStar then createRepeatingGenerator r 0 (-1)
        else .error (.opMismatch .OpStar o)
      | .fPlus =>
        if o = .OpPlus then createRepeatingGenerator r 1 (-1)
        else .error (.opMismatch .OpPlus o)
      | .fRepeat =>
        if o = .OpRepeat then createRepeatingGenerator r r.Min r.Max
        else .error (.opMismatch .OpRepeat o)
      | .fConcat =>
        if o = .OpConcat then
          match newGenerators subs with
          | .error e => .error (.wrap "error creating generators for concat pattern" e)
          | .ok gens => .ok (.concat gens)
        else .error (.opMismatch .OpConcat o)
      | .fAlternate =>
        if o = .OpAlternate then
          match newGenerators subs with
          | .error e => .error (.wrap "error creating generators for alternate pattern" e)
          | .ok gens => .ok (.alternate gens)
        else .error (.opMismatch .OpAlternate o)
      | .fCapture =>
        if o = .OpCapture then opCapture r
        else .error (.opMismatch .OpCapture o)
termination_by r => 2 * sizeOf r + 1
decreasing_by all_goals (subst_vars; simp_wf; all_goals ((try simp +arith) <;> omega))

/-- `opCapture` (`regen.go` lines 276-284) without its leading `enforceOp`
check (performed by the dispatch above): enforce the single child, then
compile to exactly that child's generator. -/
def opCapture : Regexp → Except Err Gen
  | r@(.mk _ subs _ _ _) =>
    match subs with
    | [c] => newGenerator c
    | _ => .error (.singleSub r.Op subs.length r)
termination_by r => 2 * sizeOf r
decreasing_by all_goals (subst_vars; simp_wf; all_goals ((try simp +arith) <;> omega))

/-- `newGenerators` (`regen.go` lines 151-165): compile each child, stopping at
the first failure. -/
def newGenerators : List Regexp → Except Err (List Gen)
  | [] => .ok []
  | r :: rs =>
    match newGenerator r with
    | .error e => .error e
    | .ok g =>
      match newGenerators rs with
      | .error e => .error e
      | .ok gs => .ok (g :: gs)
termination_by rs => 2 * sizeOf rs + 1
decreasing_by all_goals (subst_vars; simp_wf; all_goals ((try simp +arith) <;> omega))

/-- `createRepeatingGenerator` (`regen.go` lines 310-335): enforce the single
child, compile it, substitute `MaxUpperBound = 4096` for a negative `max`. -/
def createRepeatingGenerator : Regexp → Int → Int → Except Err Gen
  | r@(.mk _ subs _ _ _), mn, mx =>
    match subs with
    | [c] =>
      match newGenerator c with
      | .error e => .error (.wrap "Failed to create generator for subexpression" e)
      | .ok g => .ok (.rep mn (if mx < 0 then MaxUpperBound else mx) g)
    | _ => .error (.singleSub r.Op subs.length r)
termination_by r _ _ => 2 * sizeOf r
decreasing_by all_goals (subst_vars; simp_wf; all_goals ((try simp +arith) <;> omega))

end

mutual

/-- One invocation of a compiled generator: consume draws from the stream `σ`
starting at cursor `k`, produce the generated code points and the new cursor.
`none` models a Go panic (`Intn`/`Int31n` with a non-positive argument). -/
def run : Gen → (Nat → Nat) → Nat → Option (List Nat × Nat)
  | .empty, _, k => some ([], k)
  | .literal rs, _, k => some (rs, k)
  | .anyChar, σ, k => some ([σ k % 2 ^ 31], k + 1)
  | .charClass cc, σ, k =>
    if cc.TotalSize = 0 then none
    else some ([cc.GetRuneAt (σ k % cc.TotalSize)], k + 1)
  | .concat gs, σ, k => runList gs σ k
  | .alternate gs, σ, k =>
    if h : gs.length = 0 then none
    else run (gs.get ⟨σ k % gs.length, Nat.mod_lt _ (Nat.pos_of_ne_zero h)⟩) σ (k + 1)
  | .rep mn mx g, σ, k =>
    if mx - mn + 1 ≤ 0 then none
    else runRepeat g (mn + ((σ k : Int) % (mx - mn + 1))).toNat σ (k + 1)
termination_by g _ _ => (sizeOf g, 0)
decreasing_by
  all_goals simp_wf
  all_goals first
  | omega
  | (apply Prod.Lex.left; omega)
  | (apply Prod.Lex.right; omega)
  | (have hlt := List.sizeOf_get gs ⟨σ k % gs.length, Nat.mod_lt _ (Nat.pos_of_ne_zero h)⟩
     simp only [List.get_eq_getElem] at hlt
     omega)
  | (apply Prod.Lex.left
     have hlt := List.sizeOf_get gs ⟨σ k % gs.length, Nat.mod_lt _ (Nat.pos_of_ne_zero h)⟩
     simp only [List.get_eq_getElem] at hlt
     omega)

/-- Invoke the generators of a concatenation in order, concatenating results
(`opConcat`'s closure, `regen.go` lines 250-256). -/
def runList : List Gen → (Nat → Nat) → Nat → Option (List Nat × Nat)
  | [], _, k => some ([], k)
  | g :: gs, σ, k =>
    match run g σ k with
    | none => none
    | some (s, k1) =>
      match runList gs σ k1 with
      | none => none
      | some (s2, k2) => some (s ++ s2, k2)
termination_by gs _ _ => (sizeOf gs, 0)

/-- Invoke one generator `n` times, concatenating results (the loop of
`createRepeatingGenerator`'s closure, `regen.go` lines 325-333). -/
def runRepeat : Gen → Nat → (Nat → Nat) → Nat → Option (List Nat × Nat)
  | _, 0, _, k => some ([], k)
  | g, n + 1, σ, k =>
    match run g σ k with
    | none => none
    | some (s, k1) =>
      match runRepeat g n σ k1 with
      | none => none
      | some (s2, k2) => some (s ++ s2, k2)
termination_by g n _ _ => (sizeOf g, n + 1)

end

/-- `regexp/syntax.ClassNL` (flag value from the Go standard library). -/
def ClassNL : Nat := 4

/-- `regexp/syntax.OneLine` (flag value from the Go standard library). -/
def OneLine : Nat := 16

/-- `regexp/syntax.PerlX` (flag value from the Go standard library). -/
def PerlX : Nat := 128

/-- `regexp/syntax.UnicodeGroups` (flag value from the Go standard library). -/
def UnicodeGroups : Nat := 256

/-- `regexp/syntax.Perl = ClassNL ||| OneLine ||| PerlX` (from the Go standard
library). -/
def Perl : Nat := ClassNL ||| OneLine ||| PerlX

/-- `NewGenerator` (`regen.go` lines 129-149), with the external parser
abstracted as its result: the Unicode-groups configuration check runs first;
only if it passes is the parse result consulted (a parse error is surfaced
unchanged, a parsed AST is compiled). -/
def NewGenerator (flags : Nat) (parsed : Except Err Regexp) : Except Err Gen :=
  if flags &&& UnicodeGroups = UnicodeGroups ∧ ¬ flags &&& Perl = Perl then
    .error (.msg "UnicodeGroups not supported")
  else
    match parsed with
    | .error e => .error e
    | .ok r => newGenerator r

mutual

/-- The conditions under which a compiled generator tree can never hit a Go
panic at generation time: no empty character class (`Int31n(0)` panics), no
childless alternation (`Intn(0)` panics), and each repetition's effective
bounds satisfy `min ≤ max` (`Intn(max-min+1)` panics otherwise). -/
def goodGen : Gen → Bool
  | .empty => true
  | .literal _ => true
  | .anyChar => true
  | .charClass cc => decide (0 < cc.TotalSize)
  | .concat gs => goodGenList gs
  | .alternate gs => decide (0 < gs.length) && goodGenList gs
  | .rep mn mx g => decide (0 < mx - mn + 1) && goodGen g

/-- `goodGen` on every generator of a list. -/
def goodGenList : List Gen → Bool
  | [] => true
  | g :: gs => goodGen g && goodGenList gs

end

/-- Whether an error is (or wraps) the `enforceOp` kind-mismatch panic. -/
def errHasMismatch : Err → Bool
  | .opMismatch _ _ => true
  | .wrap _ e => errHasMismatch e
  | _ => false

/-- Whether a compilation outcome contains the `enforceOp` kind-mismatch
panic. -/
def resHasMismatch : Except Err Gen → Bool
  | .error e => errHasMismatch e
  | .ok _ => false

/-- The invariant of a Character-Class Index (spec section 3): inclusive
ranges (`lo ≤ hi`), sorted ascending and non-overlapping. -/
def wfRanges : List (Nat × Nat) → Bool
  | [] => true
  | [p] => decide (p.1 ≤ p.2)
  | p :: q :: rest => decide (p.1 ≤ p.2) && decide (p.2 < q.1) && wfRanges (q :: rest)

/-- The set of code points covered by a range list. -/
def memRanges (l : List (Nat × Nat)) (c : Nat) : Prop :=
  ∃ p ∈ l, p.1 ≤ c ∧ c ≤ p.2
-- C7 helper lemmas

theorem wfRanges_tail {p : Nat × Nat} {rest : List (Nat × Nat)}
    (h : wfRanges (p :: rest) = true) : wfRanges rest = true := by
  cases rest with
  | nil => rfl
  | cons q rest' => simp [wfRanges] at h ⊢; exact h.2

theorem wfRanges_head_le {p : Nat × Nat} {rest : List (Nat × Nat)}
    (h : wfRanges (p :: rest) = true) : p.1 ≤ p.2 := by
  cases rest with
  | nil => simp [wfRanges] at h; exact h
  | cons q rest' => simp [wfRanges] at h; exact h.1.1

theorem wfRanges_lt_of_mem_tail {p : Nat × Nat} {rest : List (Nat × Nat)}
    (h : wfRanges (p :: rest) = true) {q : Nat × Nat} (hq : q ∈ rest) : p.2 < q.1 := by
  induction rest generalizing p with
  | nil => cases hq
  | cons q0 rest' ih =>
    simp [wfRanges] at h
    rcases List.mem_cons.mp hq with rfl | hq'
    · exact h.1.2
    · have h1 := ih h.2 hq'
      have h2 : q0.1 ≤ q0.2 := wfRanges_head_le h.2
      omega

theorem totalSizeList_eq_sum (l : List (Nat × Nat)) :
    totalSizeList l = (l.map fun p => p.2 - p.1 + 1).sum := by
  induction l with
  | nil => rfl
  | cons p rest ih => simp [totalSizeList, rangeSize, ih]

theorem getRuneAt_mem {l : List (Nat × Nat)} (hwf : wfRanges l = true)
    {i : Nat} (hi : i < totalSizeList l) : memRanges l (getRuneAtList l i) := by
  induction l generalizing i with
  | nil => simp [totalSizeList] at hi
  | cons p rest ih =>
    have hple : p.1 ≤ p.2 := wfRanges_head_le hwf
    simp [totalSizeList] at hi
    by_cases hcase : i < rangeSize p
    · have hg : getRuneAtList (p :: rest) i = p.1 + i := by simp [getRuneAtList, hcase]
      simp [rangeSize] at hcase
      refine ⟨p, List.mem_cons_self _ _, ?_, ?_⟩ <;> rw [hg] <;> omega
    · have hrec := ih (wfRanges_tail hwf)
        (show i - rangeSize p < totalSizeList rest by omega)
      obtain ⟨q, hq, hq1, hq2⟩ := hrec
      exact ⟨q, List.mem_cons_of_mem _ hq, by simp [getRuneAtList, hcase]; omega,
        by simp [getRuneAtList, hcase]; omega⟩

theorem getRuneAt_strictMono {l : List (Nat × Nat)} (hwf : wfRanges l = true)
    {i j : Nat} (hij : i < j) (hj : j < totalSizeList l) :
    getRuneAtList l i < getRuneAtList l j := by
  induction l generalizing i j with
  | nil => simp [totalSizeList] at hj
  | cons p rest ih =>
    have hple : p.1 ≤ p.2 := wfRanges_head_le hwf
    simp [totalSizeList] at hj
    by_cases hjp : j < rangeSize p
    · have hip : i < rangeSize p := by omega
      simp [getRuneAtList, hip, hjp]; omega
    · by_cases hip : i < rangeSize p
      · have h1 : getRuneAtList (p :: rest) i = p.1 + i := by simp [getRuneAtList, hip]
        have h2 : getRuneAtList (p :: rest) j = getRuneAtList rest (j - rangeSize p) := by
          simp [getRuneAtList, hjp]
        have hmem := getRuneAt_mem (wfRanges_tail hwf)
          (show j - rangeSize p < totalSizeList rest by omega)
        obtain ⟨q, hq, hq1, hq2⟩ := hmem
        have hlt := wfRanges_lt_of_mem_tail hwf hq
        rw [h1, h2]
        simp [rangeSize] at hip
        omega
      · have h1 : getRuneAtList (p :: rest) i = getRuneAtList rest (i - rangeSize p) := by
          simp [getRuneAtList, hip]
        have h2 : getRuneAtList (p :: rest) j = getRuneAtList rest (j - rangeSize p) := by
          simp [getRuneAtList, hjp]
        rw [h1, h2]
        exact ih (wfRanges_tail hwf) (by omega) (by omega)

theorem getRuneAt_surj {l : List (Nat × Nat)} (hwf : wfRanges l = true)
    {c : Nat} (hc : memRanges l c) :
    ∃ i, i < totalSizeList l ∧ getRuneAtList l i = c := by
  induction l with
  | nil => obtain ⟨q, hq, _⟩ := hc; cases hq
  | cons p rest ih =>
    have hple : p.1 ≤ p.2 := wfRanges_head_le hwf
    obtain ⟨q, hq, hq1, hq2⟩ := hc
    rcases List.mem_cons.mp hq with rfl | hq'
    · refine ⟨c - q.1, ?_, ?_⟩
      · simp [totalSizeList, rangeSize]; omega
      · have : c - q.1 < rangeSize q := by simp [rangeSize]; omega
        simp [getRuneAtList, this]; omega
    · obtain ⟨i', hi', heq⟩ := ih (wfRanges_tail hwf) ⟨q, hq', hq1, hq2⟩
      refine ⟨rangeSize p + i', ?_, ?_⟩
      · simp [totalSizeList]; omega
      · have hnot : ¬ rangeSize p + i' < rangeSize p := by omega
        simp [getRuneAtList, hnot]
        simpa [Nat.add_sub_cancel_left] using heq
-- C4 helper lemmas

theorem runRepeat_isSome {g : Gen} (hg : ∀ σ k, (run g σ k).isSome = true) :
    ∀ n σ k, (runRepeat g n σ k).isSome = true := by
  intro n
  induction n with
  | zero => intro σ k; simp [runRepeat]
  | succ n ih =>
    intro σ k
    have h1 := hg σ k
    rw [Option.isSome_iff_exists] at h1
    obtain ⟨⟨s, k1⟩, hr⟩ := h1
    have h2 := ih σ k1
    rw [Option.isSome_iff_exists] at h2
    obtain ⟨⟨s2, k2⟩, hr2⟩ := h2
    simp [runRepeat, hr, hr2]

theorem runList_isSome {gs : List Gen} (hg : ∀ g ∈ gs, ∀ σ k, (run g σ k).isSome = true) :
    ∀ σ k, (runList gs σ k).isSome = true := by
  induction gs with
  | nil => intro σ k; simp [runList]
  | cons g gs ih =>
    intro σ k
    have h1 := hg g (List.mem_cons_self _ _) σ k
    rw [Option.isSome_iff_exists] at h1
    obtain ⟨⟨s, k1⟩, hr⟩ := h1
    have h2 := ih (fun g' hm => hg g' (List.mem_cons_of_mem _ hm)) σ k1
    rw [Option.isSome_iff_exists] at h2
    obtain ⟨⟨s2, k2⟩, hr2⟩ := h2
    simp [runList, hr, hr2]

theorem goodGenList_mem {gs : List Gen} (h : goodGenList gs = true) {g : Gen} (hg : g ∈ gs) :
    goodGen g = true := by
  induction gs with
  | nil => cases hg
  | cons g0 gs ih =>
    simp [goodGenList] at h
    rcases List.mem_cons.mp hg with rfl | hm
    · exact h.1
    · exact ih h.2 hm

theorem run_isSome_of_good (g : Gen) (hg : goodGen g = true) :
    ∀ σ k, (run g σ k).isSome = true := by
  match g with
  | .empty => intro σ k; simp [run]
  | .literal rs => intro σ k; simp [run]
  | .anyChar => intro σ k; simp [run]
  | .charClass cc =>
    intro σ k
    simp [goodGen] at hg
    simp [run]
    omega
  | .concat gs =>
    have hmem : ∀ g' ∈ gs, ∀ σ' k', (run g' σ' k').isSome = true := by
      intro g' hm
      exact run_isSome_of_good g' (goodGenList_mem (by simpa [goodGen] using hg) hm)
    intro σ k
    simpa [run] using runList_isSome hmem σ k
  | .alternate gs =>
    intro σ k
    simp [goodGen] at hg
    obtain ⟨hlen, hlist⟩ := hg
    have hne : ¬ gs.length = 0 := by omega
    simp [run, hne]
    exact run_isSome_of_good (gs.get ⟨σ k % gs.length, Nat.mod_lt _ (Nat.pos_of_ne_zero hne)⟩)
      (goodGenList_mem hlist (List.get_mem _ _ _)) σ (k + 1)
  | .rep mn mx g0 =>
    intro σ k
    simp [goodGen] at hg
    obtain ⟨hspan, hgood0⟩ := hg
    have hns : ¬ mx - mn + 1 ≤ 0 := by omega
    simp [run, hns]
    exact runRepeat_isSome (run_isSome_of_good g0 hgood0) _ σ (k + 1)
termination_by sizeOf g
decreasing_by
  all_goals simp_wf
  all_goals first
  | omega
  | (have h9 := List.sizeOf_lt_of_mem hm; omega)
  | (have h9 := List.sizeOf_get gs ⟨σ k % gs.length, Nat.mod_lt _ (Nat.pos_of_ne_zero hne)⟩
     simp only [List.get_eq_getElem] at h9
     omega)
-- One-step unfolding equations for the compiler, one per node kind.

theorem newGenerator_noMatch (subs : List Regexp) (runes : List Nat) (mn mx : Int) :
    newGenerator (.mk .OpNoMatch subs runes mn mx) =
      .error (.unsupported (.mk .OpNoMatch subs runes mn mx)) := by
  rw [newGenerator]; rfl

theorem newGenerator_emptyMatch (subs : List Regexp) (runes : List Nat) (mn mx : Int) :
    newGenerator (.mk .OpEmptyMatch subs runes mn mx) = .ok .empty := by
  rw [newGenerator]; rfl

theorem newGenerator_literal (subs : List Regexp) (runes : List Nat) (mn mx : Int) :
    newGenerator (.mk .OpLiteral subs runes mn mx) = .ok (.literal runes) := by
  rw [newGenerator]; rfl

theorem newGenerator_anyChar (subs : List Regexp) (runes : List Nat) (mn mx : Int) :
    newGenerator (.mk .OpAnyChar subs runes mn mx) = .ok .anyChar := by
  rw [newGenerator]; rfl

theorem newGenerator_anyCharNotNl (subs : List Regexp) (runes : List Nat) (mn mx : Int) :
    newGenerator (.mk .OpAnyCharNotNL subs runes mn mx) =
      .ok (.charClass (NewCharClass 1 (2 ^ 31 - 1))) := by
  rw [newGenerator]; rfl

theorem newGenerator_charClass (subs : List Regexp) (runes : List Nat) (mn mx : Int) :
    newGenerator (.mk .OpCharClass subs runes mn mx) =
      .ok (.charClass (ParseCharClass runes)) := by
  rw [newGenerator]; rfl

theorem newGenerator_beginLine (subs : List Regexp) (runes : List Nat) (mn mx : Int) :
    newGenerator (.mk .OpBeginLine subs runes mn mx) = .ok .empty := by
  rw [newGenerator]; rfl

theorem newGenerator_endLine (subs : List Regexp) (runes : List Nat) (mn mx : Int) :
    newGenerator (.mk .OpEndLine subs runes mn mx) = .ok .empty := by
  rw [newGenerator]; rfl

theorem newGenerator_beginText (subs : List Regexp) (runes : List Nat) (mn mx : Int) :
    newGenerator (.mk .OpBeginText subs runes mn mx) = .ok .empty := by
  rw [newGenerator]; rfl

theorem newGenerator_endText (subs : List Regexp) (runes : List Nat) (mn mx : Int) :
    newGenerator (.mk .OpEndText subs runes mn mx) = .ok .empty := by
  rw [newGenerator]; rfl

theorem newGenerator_wordBoundary (subs : List Regexp) (runes : List Nat) (mn mx : Int) :
    newGenerator (.mk .OpWordBoundary subs runes mn mx) = .ok .empty := by
  rw [newGenerator]; rfl

theorem newGenerator_noWordBoundary (subs : List Regexp) (runes : List Nat) (mn mx : Int) :
    newGenerator (.mk .OpNoWordBoundary subs runes mn mx) = .ok .empty := by
  rw [newGenerator]; rfl

theorem newGenerator_quest (subs : List Regexp) (runes : List Nat) (mn mx : Int) :
    newGenerator (.mk .OpQuest subs runes mn mx) =
      createRepeatingGenerator (.mk .OpQuest subs runes mn mx) 0 1 := by
  rw [newGenerator]; rfl

theorem newGenerator_star (subs : List Regexp) (runes : List Nat) (mn mx : Int) :
    newGenerator (.mk .OpStar subs runes mn mx) =
      createRepeatingGenerator (.mk .OpStar subs runes mn mx) 0 (-1) := by
  rw [newGenerator]; rfl

theorem newGenerator_plus (subs : List Regexp) (runes : List Nat) (mn mx : Int) :
    newGenerator (.mk .OpPlus subs runes mn mx) =
      createRepeatingGenerator (.mk .OpPlus subs runes mn mx) 1 (-1) := by
  rw [newGenerator]; rfl

theorem newGenerator_repeat (subs : List Regexp) (runes : List Nat) (mn mx : Int) :
    newGenerator (.mk .OpRepeat subs runes mn mx) =
      createRepeatingGenerator (.mk .OpRepeat subs runes mn mx) mn mx := by
  rw [newGenerator]; rfl

theorem newGenerator_concat (subs : List Regexp) (runes : List Nat) (mn mx : Int) :
    newGenerator (.mk .OpConcat subs runes mn mx) =
      (match newGenerators subs with
        | .error e => .error (.wrap "error creating generators for concat pattern" e)
        | .ok gens => .ok (.concat gens)) := by
  rw [newGenerator]; rfl

theorem newGenerator_alternate (subs : List Regexp) (runes : List Nat) (mn mx : Int) :
    newGenerator (.mk .OpAlternate subs runes mn mx) =
      (match newGenerators subs with
        | .error e => .error (.wrap "error creating generators for alternate pattern" e)
        | .ok gens => .ok (.alternate gens)) := by
  rw [newGenerator]; rfl

theorem newGenerator_capture (subs : List Regexp) (runes : List Nat) (mn mx : Int) :
    newGenerator (.mk .OpCapture subs runes mn mx) =
      opCapture (.mk .OpCapture subs runes mn mx) := by
  rw [newGenerator]; rfl

theorem opCapture_single (o : Op) (c : Regexp) (runes : List Nat) (mn mx : Int) :
    opCapture (.mk o [c] runes mn mx) = newGenerator c := by
  rw [opCapture]

theorem opCapture_bad (o : Op) (subs : List Regexp) (runes : List Nat) (mn mx : Int)
    (hsub : subs.length ≠ 1) :
    opCapture (.mk o subs runes mn mx) =
      .error (.singleSub o subs.length (.mk o subs runes mn mx)) := by
  match subs, hsub with
  | [], _ =>
    rw [opCapture]
    all_goals try rfl
    all_goals (intro c0 h0 hc0 hh0; exact absurd hc0 (by simp))
  | c :: c2 :: rest, _ =>
    rw [opCapture]
    all_goals try rfl
    all_goals (intro c0 h0 hc0 hh0; exact absurd hc0 (by simp))
  | [c], h => exact absurd rfl h

theorem newGenerator_capture_single (c : Regexp) (runes : List Nat) (mn mx : Int) :
    newGenerator (.mk .OpCapture [c] runes mn mx) = newGenerator c := by
  rw [newGenerator_capture, opCapture_single]

theorem newGenerator_capture_bad (subs : List Regexp) (runes : List Nat) (mn mx : Int)
    (hsub : subs.length ≠ 1) :
    newGenerator (.mk .OpCapture subs runes mn mx) =
      .error (.singleSub .OpCapture subs.length (.mk .OpCapture subs runes mn mx)) := by
  rw [newGenerator_capture, opCapture_bad _ _ _ _ _ hsub]

theorem createRepeatingGenerator_single (o : Op) (c : Regexp) (runes : List Nat)
    (mn0 mx0 mn mx : Int) :
    createRepeatingGenerator (.mk o [c] runes mn0 mx0) mn mx =
      (match newGenerator c with
        | .error e => .error (.wrap "Failed to create generator for subexpression" e)
        | .ok g => .ok (.rep mn (if mx < 0 then MaxUpperBound else mx) g)) := by
  rw [createRepeatingGenerator]

theorem createRepeatingGenerator_bad (o : Op) (subs : List Regexp) (runes : List Nat)
    (mn0 mx0 mn mx : Int) (hsub : subs.length ≠ 1) :
    createRepeatingGenerator (.mk o subs runes mn0 mx0) mn mx =
      .error (.singleSub o subs.length (.mk o subs runes mn0 mx0)) := by
  match subs, hsub with
  | [], _ =>
    rw [createRepeatingGenerator]
    all_goals try rfl
    all_goals (intro c0 h0 hc0 hh0; exact absurd hc0 (by simp))
  | c :: c2 :: rest, _ =>
    rw [createRepeatingGenerator]
    all_goals try rfl
    all_goals (intro c0 h0 hc0 hh0; exact absurd hc0 (by simp))
  | [c], h => exact absurd rfl h

theorem newGenerators_nil : newGenerators [] = .ok [] := by
  rw [newGenerators]

theorem newGenerators_cons (r : Regexp) (rs : List Regexp) :
    newGenerators (r :: rs) =
      (match newGenerator r with
        | .error e => .error e
        | .ok g =>
          match newGenerators rs with
          | .error e => .error e
          | .ok gs => .ok (g :: gs)) := by
  rw [newGenerators]
-- C10 helper lemmas: no compilation path produces the enforceOp mismatch.

mutual

theorem newGenerator_noMismatch (r : Regexp) : resHasMismatch (newGenerator r) = false := by
  cases r with
  | mk o subs runes mn mx =>
    cases o with
    | OpNoMatch => rw [newGenerator_noMatch]; rfl
    | OpEmptyMatch => rw [newGenerator_emptyMatch]; rfl
    | OpLiteral => rw [newGenerator_literal]; rfl
    | OpCharClass => rw [newGenerator_charClass]; rfl
    | OpAnyCharNotNL => rw [newGenerator_anyCharNotNl]; rfl
    | OpAnyChar => rw [newGenerator_anyChar]; rfl
    | OpBeginLine => rw [newGenerator_beginLine]; rfl
    | OpEndLine => rw [newGenerator_endLine]; rfl
    | OpBeginText => rw [newGenerator_beginText]; rfl
    | OpEndText => rw [newGenerator_endText]; rfl
    | OpWordBoundary => rw [newGenerator_wordBoundary]; rfl
    | OpNoWordBoundary => rw [newGenerator_noWordBoundary]; rfl
    | OpQuest =>
      rw [newGenerator_quest]
      exact createRepeating_noMismatch (.mk .OpQuest subs runes mn mx) 0 1
    | OpStar =>
      rw [newGenerator_star]
      exact createRepeating_noMismatch (.mk .OpStar subs runes mn mx) 0 (-1)
    | OpPlus =>
      rw [newGenerator_plus]
      exact createRepeating_noMismatch (.mk .OpPlus subs runes mn mx) 1 (-1)
    | OpRepeat =>
      rw [newGenerator_repeat]
      exact createRepeating_noMismatch (.mk .OpRepeat subs runes mn mx) mn mx
    | OpConcat =>
      rw [newGenerator_concat]
      have h := newGenerators_noMismatch subs
      cases hs : newGenerators subs with
      | error e => rw [hs] at h; simpa [resHasMismatch, errHasMismatch] using h
      | ok gens => rfl
    | OpAlternate =>
      rw [newGenerator_alternate]
      have h := newGenerators_noMismatch subs
      cases hs : newGenerators subs with
      | error e => rw [hs] at h; simpa [resHasMismatch, errHasMismatch] using h
      | ok gens => rfl
    | OpCapture =>
      rw [newGenerator_capture]
      exact opCapture_noMismatch (.mk .OpCapture subs runes mn mx)
termination_by 2 * sizeOf r + 2
decreasing_by all_goals (simp_wf; all_goals ((try simp +arith) <;> omega))

theorem opCapture_noMismatch (r : Regexp) : resHasMismatch (opCapture r) = false := by
  cases r with
  | mk o subs runes mn mx =>
    match subs with
    | [c] =>
      rw [opCapture_single]
      exact newGenerator_noMismatch c
    | [] => rw [opCapture_bad o [] runes mn mx (by simp)]; rfl
    | c :: c2 :: rest => rw [opCapture_bad o (c :: c2 :: rest) runes mn mx (by simp)]; rfl
termination_by 2 * sizeOf r + 1
decreasing_by all_goals (simp_wf; all_goals ((try simp +arith) <;> omega))

theorem newGenerators_noMismatch (rs : List Regexp) :
    (match newGenerators rs with
      | .error e => errHasMismatch e
      | .ok _ => false) = false := by
  cases rs with
  | nil => rw [newGenerators_nil]
  | cons r rs' =>
    rw [newGenerators_cons]
    have h1 := newGenerator_noMismatch r
    cases hr : newGenerator r with
    | error e => rw [hr] at h1; simpa [resHasMismatch] using h1
    | ok g =>
      have h2 := newGenerators_noMismatch rs'
      cases hs : newGenerators rs' with
      | error e => rw [hs] at h2; simpa using h2
      | ok gens => rfl
termination_by 2 * sizeOf rs + 2
decreasing_by all_goals (simp_wf; all_goals ((try simp +arith) <;> omega))

theorem createRepeating_noMismatch (r : Regexp) (mn mx : Int) :
    resHasMismatch (createRepeatingGenerator r mn mx) = false := by
  cases r with
  | mk o subs runes mn0 mx0 =>
    match subs with
    | [c] =>
      rw [createRepeatingGenerator_single]
      have h1 := newGenerator_noMismatch c
      cases hr : newGenerator c with
      | error e => rw [hr] at h1; simpa [resHasMismatch, errHasMismatch] using h1
      | ok g => rfl
    | [] => rw [createRepeatingGenerator_bad o [] runes mn0 mx0 mn mx (by simp)]; rfl
    | c :: c2 :: rest =>
      rw [createRepeatingGenerator_bad o (c :: c2 :: rest) runes mn0 mx0 mn mx (by simp)]; rfl
termination_by 2 * sizeOf r + 1
decreasing_by all_goals (simp_wf; all_goals ((try simp +arith) <;> omega))

end
-- One-step unfolding equations for the generation semantics.

theorem run_concat (gs : List Gen) (σ : Nat → Nat) (k : Nat) :
    run (.concat gs) σ k = runList gs σ k := by
  rw [run]

theorem runList_nil (σ : Nat → Nat) (k : Nat) : runList [] σ k = some ([], k) := by
  rw [runList]

theorem run_alternate_nil (σ : Nat → Nat) (k : Nat) : run (.alternate []) σ k = none := by
  rw [run]
  rfl

theorem run_alternate_pos (gs : List Gen) (σ : Nat → Nat) (k : Nat) (h : 0 < gs.length) :
    run (.alternate gs) σ k =
      run (gs.get ⟨σ k % gs.length, Nat.mod_lt _ h⟩) σ (k + 1) := by
  rw [run]
  rw [dif_neg (by omega)]

theorem run_rep_pos (mn mx : Int) (g : Gen) (σ : Nat → Nat) (k : Nat)
    (hspan : 0 < mx - mn + 1) :
    run (.rep mn mx g) σ k =
      runRepeat g (mn + (σ k : Int) % (mx - mn + 1)).toNat σ (k + 1) := by
  rw [run]
  rw [if_neg (by omega)]
-- Claim theorems.

/-- C1: the `AnyCharExcludingNewline` generator compiled from `.` without the
newline flag draws from the class `[1, 0x7FFFFFFF]`, which still contains the
newline code point 0x0A: with raw draw 9 the generated string is exactly the
single code point 10 (newline), contradicting the package documentation of
`regen.go` (lines 36-42). -/
theorem anyCharNotNl_emits_newline :
    newGenerator (.mk .OpAnyCharNotNL [] [] 0 0) =
      .ok (.charClass (NewCharClass 1 (2 ^ 31 - 1))) ∧
    run (.charClass (NewCharClass 1 (2 ^ 31 - 1))) (fun _ => 9) 0 = some ([10], 1) := by
  constructor
  · exact newGenerator_anyCharNotNl [] [] 0 0
  · simp [run, CharClass.TotalSize, NewCharClass, totalSizeList, rangeSize,
      CharClass.GetRuneAt, getRuneAtList]

/-- C2: a `Repeat(min, max)` node with a single child compiles to a repeat
generator whose effective upper bound substitutes 4096 for a negative `max`;
each invocation draws a count `n` in `[min, effectiveMax]` (hence `n ≤ 4096`
for unbounded repeats) and invokes the child generator exactly `n` times. -/
theorem repeat_count_in_bounds (c : Regexp) (runes : List Nat) (mn mx : Int)
    (g : Gen) (hc : newGenerator c = .ok g) (h0 : 0 ≤ mn)
    (hle : mn ≤ if mx < 0 then MaxUpperBound else mx) :
    newGenerator (.mk .OpRepeat [c] runes mn mx) =
      .ok (.rep mn (if mx < 0 then MaxUpperBound else mx) g) ∧
    ∀ σ k, ∃ n : Int,
      n = mn + (σ k : Int) % ((if mx < 0 then MaxUpperBound else mx) - mn + 1) ∧
      mn ≤ n ∧ n ≤ (if mx < 0 then MaxUpperBound else mx) ∧
      (mx < 0 → n ≤ 4096) ∧
      run (.rep mn (if mx < 0 then MaxUpperBound else mx) g) σ k =
        runRepeat g n.toNat σ (k + 1) := by
  have hM : MaxUpperBound = 4096 := rfl
  constructor
  · rw [newGenerator_repeat, createRepeatingGenerator_single, hc]
  · intro σ k
    refine ⟨mn + (σ k : Int) % ((if mx < 0 then MaxUpperBound else mx) - mn + 1),
      rfl, ?_, ?_, ?_, ?_⟩
    all_goals
      have hspan : 0 < (if mx < 0 then MaxUpperBound else mx) - mn + 1 := by omega
    all_goals
      have hr0 : 0 ≤ (σ k : Int) % ((if mx < 0 then MaxUpperBound else mx) - mn + 1) :=
        Int.emod_nonneg _ (by omega)
    all_goals
      have hrlt : (σ k : Int) % ((if mx < 0 then MaxUpperBound else mx) - mn + 1) <
          (if mx < 0 then MaxUpperBound else mx) - mn + 1 :=
        Int.emod_lt_of_pos _ hspan
    · omega
    · omega
    · intro hmx
      rw [if_pos hmx] at hrlt ⊢
      omega
    · exact run_rep_pos _ _ _ _ _ hspan

/-- C2 witness: the repeat `a{2,}` (min 2, unbounded max) at concrete inputs. -/
theorem repeat_count_in_bounds_witness :
    newGenerator (.mk .OpRepeat [.mk .OpLiteral [] [97] 0 0] [] 2 (-1)) =
      .ok (.rep 2 (if (-1 : Int) < 0 then MaxUpperBound else -1) (.literal [97])) ∧
    ∀ σ k, ∃ n : Int,
      n = 2 + (σ k : Int) % ((if (-1 : Int) < 0 then MaxUpperBound else -1) - 2 + 1) ∧
      2 ≤ n ∧ n ≤ (if (-1 : Int) < 0 then MaxUpperBound else -1) ∧
      ((-1 : Int) < 0 → n ≤ 4096) ∧
      run (.rep 2 (if (-1 : Int) < 0 then MaxUpperBound else -1) (.literal [97])) σ k =
        runRepeat (.literal [97]) n.toNat σ (k + 1) :=
  repeat_count_in_bounds (.mk .OpLiteral [] [97] 0 0) [] 2 (-1) (.literal [97])
    (newGenerator_literal [] [97] 0 0) (by decide) (by decide)

/-- C3 counterexample: an `Alternation` node with zero children compiles
successfully, but invoking the resulting generator does not return the empty
string — it hits the `Intn(0)` panic (modelled as `none`). -/
theorem alternate_empty_invocation_panics :
    newGenerator (.mk .OpAlternate [] [] 0 0) = .ok (.alternate []) ∧
    run (.alternate []) (fun _ => 0) 0 = none := by
  constructor
  · rw [newGenerator_alternate, newGenerators_nil]
  · exact run_alternate_nil _ _

/-- C3 (amended): a `Concatenation` node with zero children behaves as
`EmptyMatch` (compiles and generates the empty string), while an `Alternation`
node with zero children compiles but its generator panics at invocation
(`Intn` with argument 0). -/
theorem concat_empty_is_empty_match (runes : List Nat) (mn mx : Int)
    (σ : Nat → Nat) (k : Nat) :
    newGenerator (.mk .OpConcat [] runes mn mx) = .ok (.concat []) ∧
    run (.concat []) σ k = some ([], k) ∧
    newGenerator (.mk .OpAlternate [] runes mn mx) = .ok (.alternate []) ∧
    run (.alternate []) σ k = none := by
  refine ⟨?_, ?_, ?_, ?_⟩
  · rw [newGenerator_concat, newGenerators_nil]
  · rw [run_concat, runList_nil]
  · rw [newGenerator_alternate, newGenerators_nil]
  · exact run_alternate_nil σ k

/-- C4 counterexample: the empty character class (produced by the parser for
a pattern such as a negated full-range class) compiles successfully, yet its
generator panics at invocation (`Int31n` with a non-positive total size). -/
theorem empty_charClass_generate_panics :
    newGenerator (.mk .OpCharClass [] [] 0 0) = .ok (.charClass (ParseCharClass [])) ∧
    run (.charClass (ParseCharClass [])) (fun _ => 0) 0 = none := by
  constructor
  · exact newGenerator_charClass [] [] 0 0
  · simp [run, CharClass.TotalSize, ParseCharClass, pairRunes, totalSizeList]

/-- C4 (amended): for a pattern whose compilation succeeds, generation never
fails provided the compiled generator tree is free of the three panic sources
the compiler does not rule out: an empty character class, a childless
alternation, and a repetition whose effective bounds are inverted. -/
theorem generate_never_fails_on_good (r : Regexp) (g : Gen)
    (hcomp : newGenerator r = .ok g) (hgood : goodGen g = true)
    (σ : Nat → Nat) (k : Nat) : (run g σ k).isSome = true :=
  run_isSome_of_good g hgood σ k

/-- C4 witness: a compiled literal generator never fails. -/
theorem generate_never_fails_on_good_witness :
    (run (.literal [97]) (fun _ => 0) 0).isSome = true :=
  generate_never_fails_on_good (.mk .OpLiteral [] [97] 0 0) (.literal [97])
    (newGenerator_literal [] [97] 0 0) (by decide) (fun _ => 0) 0

/-- C5: the top-level entry rejects a configuration with `UnicodeGroups` but
without the full `Perl` flag set before consulting the parse result, and for
every other flag combination the check does not fire and the parse result is
processed normally. -/
theorem unicodeGroups_requires_perl :
    (∀ flags parsed, flags &&& UnicodeGroups = UnicodeGroups →
      ¬ flags &&& Perl = Perl →
      NewGenerator flags parsed = .error (.msg "UnicodeGroups not supported")) ∧
    (∀ flags parsed, (¬ flags &&& UnicodeGroups = UnicodeGroups ∨ flags &&& Perl = Perl) →
      NewGenerator flags parsed =
        match parsed with
        | .error e => .error e
        | .ok r => newGenerator r) := by
  constructor
  · intro flags parsed h1 h2
    unfold NewGenerator
    rw [if_pos ⟨h1, h2⟩]
  · intro flags parsed h
    unfold NewGenerator
    rw [if_neg]
    rintro ⟨h1, h2⟩
    rcases h with h | h
    · exact h h1
    · exact h2 h

/-- C5 witness: flags 256 (`UnicodeGroups` alone) are rejected regardless of
the parse result; flags 404 (`UnicodeGroups ||| Perl`) pass the check. -/
theorem unicodeGroups_requires_perl_witness :
    NewGenerator 256 (.ok (.mk .OpEmptyMatch [] [] 0 0)) =
      .error (.msg "UnicodeGroups not supported") ∧
    NewGenerator 404 (.ok (.mk .OpEmptyMatch [] [] 0 0)) =
      newGenerator (.mk .OpEmptyMatch [] [] 0 0) :=
  ⟨unicodeGroups_requires_perl.1 256 _ (by decide) (by decide),
   unicodeGroups_requires_perl.2 404 _ (Or.inr (by decide))⟩

/-- C6: a repeat-family or capture node whose child count is not exactly one
compiles to the recoverable single-sub error carrying the node kind, the
child count and the node itself; no generator is produced. -/
theorem wrong_child_count_errors (r : Regexp)
    (hop : r.Op = .OpQuest ∨ r.Op = .OpStar ∨ r.Op = .OpPlus ∨
      r.Op = .OpRepeat ∨ r.Op = .OpCapture)
    (hsub : r.Sub.length ≠ 1) :
    newGenerator r = .error (.singleSub r.Op r.Sub.length r) := by
  obtain ⟨o, subs, runes, mn, mx⟩ := r
  simp only [Regexp.Op, Regexp.Sub] at hop hsub ⊢
  rcases hop with rfl | rfl | rfl | rfl | rfl
  · rw [newGenerator_quest, createRepeatingGenerator_bad _ _ _ _ _ _ _ hsub]
  · rw [newGenerator_star, createRepeatingGenerator_bad _ _ _ _ _ _ _ hsub]
  · rw [newGenerator_plus, createRepeatingGenerator_bad _ _ _ _ _ _ _ hsub]
  · rw [newGenerator_repeat, createRepeatingGenerator_bad _ _ _ _ _ _ _ hsub]
  · rw [newGenerator_capture, opCapture_bad _ _ _ _ _ hsub]

/-- C6 witness: a capture with zero children. -/
theorem wrong_child_count_errors_witness :
    newGenerator (.mk .OpCapture [] [] 0 0) =
      .error (.singleSub .OpCapture 0 (.mk .OpCapture [] [] 0 0)) :=
  wrong_child_count_errors (.mk .OpCapture [] [] 0 0) (by simp [Regexp.Op])
    (by simp [Regexp.Sub])

/-- C7: for a well-formed range list, the total size equals the exact sum of
the range sizes (computed in unbounded arithmetic), and the index-to-code-point
map is a bijection from `[0, TotalSize)` onto the covered code points. -/
theorem charClass_totalSize_and_bijection (cc : CharClass)
    (hwf : wfRanges cc.ranges = true) :
    cc.TotalSize = (cc.ranges.map fun p => p.2 - p.1 + 1).sum ∧
    (∀ i, i < cc.TotalSize → memRanges cc.ranges (cc.GetRuneAt i)) ∧
    (∀ i j, i < cc.TotalSize → j < cc.TotalSize →
      cc.GetRuneAt i = cc.GetRuneAt j → i = j) ∧
    (∀ c, memRanges cc.ranges c → ∃ i, i < cc.TotalSize ∧ cc.GetRuneAt i = c) := by
  refine ⟨totalSizeList_eq_sum _, fun i hi => getRuneAt_mem hwf hi, ?_,
    fun c hc => getRuneAt_surj hwf hc⟩
  intro i j hi hj heq
  rcases Nat.lt_trichotomy i j with hlt | heqij | hgt
  · exact absurd heq (Nat.ne_of_lt (getRuneAt_strictMono hwf hlt hj))
  · exact heqij
  · exact absurd heq.symm (Nat.ne_of_lt (getRuneAt_strictMono hwf hgt hi))

/-- C7 witness: the class `{[1,3], [5,5]}`. -/
theorem charClass_totalSize_and_bijection_witness :
    wfRanges (CharClass.mk [(1, 3), (5, 5)]).ranges = true ∧
    ((CharClass.mk [(1, 3), (5, 5)]).TotalSize =
      ((CharClass.mk [(1, 3), (5, 5)]).ranges.map fun p => p.2 - p.1 + 1).sum ∧
    (∀ i, i < (CharClass.mk [(1, 3), (5, 5)]).TotalSize →
      memRanges (CharClass.mk [(1, 3), (5, 5)]).ranges
        ((CharClass.mk [(1, 3), (5, 5)]).GetRuneAt i)) ∧
    (∀ i j, i < (CharClass.mk [(1, 3), (5, 5)]).TotalSize →
      j < (CharClass.mk [(1, 3), (5, 5)]).TotalSize →
      (CharClass.mk [(1, 3), (5, 5)]).GetRuneAt i =
        (CharClass.mk [(1, 3), (5, 5)]).GetRuneAt j → i = j) ∧
    (∀ c, memRanges (CharClass.mk [(1, 3), (5, 5)]).ranges c →
      ∃ i, i < (CharClass.mk [(1, 3), (5, 5)]).TotalSize ∧
        (CharClass.mk [(1, 3), (5, 5)]).GetRuneAt i = c)) :=
  ⟨by decide, charClass_totalSize_and_bijection (CharClass.mk [(1, 3), (5, 5)]) (by decide)⟩

/-- C8: a `Capture` node with exactly one child compiles to exactly the
child's compilation outcome: same generator on success, same error on
failure, hence identical generation behaviour for every RNG stream. -/
theorem capture_is_transparent (c : Regexp) (runes : List Nat) (mn mx : Int) :
    newGenerator (.mk .OpCapture [c] runes mn mx) = newGenerator c :=
  newGenerator_capture_single c runes mn mx

/-- C9: an `Alternation` node with at least one child compiles each child and
every invocation draws one index `i = draw mod n < n`, invokes exactly the
`i`-th child generator and returns its result unchanged. -/
theorem alternate_picks_one_child (subs : List Regexp) (runes : List Nat)
    (mn mx : Int) (gs : List Gen) (hsubs : newGenerators subs = .ok gs)
    (h : 0 < gs.length) :
    newGenerator (.mk .OpAlternate subs runes mn mx) = .ok (.alternate gs) ∧
    ∀ σ k, σ k % gs.length < gs.length ∧
      run (.alternate gs) σ k =
        run (gs.get ⟨σ k % gs.length, Nat.mod_lt _ h⟩) σ (k + 1) := by
  constructor
  · rw [newGenerator_alternate, hsubs]
  · intro σ k
    exact ⟨Nat.mod_lt _ h, run_alternate_pos gs σ k h⟩

/-- C9 witness: the alternation of the literals `a` and `b`, with a draw
selecting the second branch. -/
theorem alternate_picks_one_child_witness :
    newGenerator (.mk .OpAlternate
        [.mk .OpLiteral [] [97] 0 0, .mk .OpLiteral [] [98] 0 0] [] 0 0) =
      .ok (.alternate [.literal [97], .literal [98]]) ∧
    ∀ σ k, σ k % ([Gen.literal [97], Gen.literal [98]].length) <
        [Gen.literal [97], Gen.literal [98]].length ∧
      run (.alternate [.literal [97], .literal [98]]) σ k =
        run ([Gen.literal [97], Gen.literal [98]].get
          ⟨σ k % [Gen.literal [97], Gen.literal [98]].length,
            Nat.mod_lt _ (by decide)⟩) σ (k + 1) :=
  alternate_picks_one_child
    [.mk .OpLiteral [] [97] 0 0, .mk .OpLiteral [] [98] 0 0] [] 0 0
    [.literal [97], .literal [98]]
    (by simp [newGenerators_cons, newGenerators_nil, newGenerator_literal])
    (by decide)

/-- C10: dispatch always hands a node to the builder registered for its kind,
so no compilation outcome ever contains the `enforceOp` kind-mismatch panic. -/
theorem enforceOp_unreachable (r : Regexp) : resHasMismatch (newGenerator r) = false :=
  newGenerator_noMismatch r
